import Mathlib

/-!
Shallow embedding of the RedGifsServer credential lifecycle manager
(`main.go`): configuration validation, the gif lookup handler, the
access-token refresh routine with its fixed backoff schedule, settle
delay, random-IP validation probe and lock-guarded credential store,
and a reader/writer-lock transition system for the concurrent store.

Effectful steps of the refresh routine (sleeps, upstream calls, the
lock-guarded store write) are reified as an event trace so that timing
and ordering claims can be stated about the code.
-/

set_option autoImplicit false

/-- Fixed service-identifying user agent (`ServerUserAgent` in `main.go`). -/
def ServerUserAgent : String :=
  "app.stellarreddit.RedGifsServer (email: legal@azimuthcore.com)"

/-- `ErrNoHTTPPort` constant from `main.go`. -/
def ErrNoHTTPPort : String := "no HTTP port provided"

/-- `ErrNoRedGifsClientID` constant from `main.go`. -/
def ErrNoRedGifsClientID : String := "no RedGifs client id provided"

/-- `ErrNoRedGifsClientKey` constant from `main.go`. -/
def ErrNoRedGifsClientKey : String := "no RedGifs client secret provided"

/-- `ErrNoRedGifsTestId` constant from `main.go`. -/
def ErrNoRedGifsTestId : String := "no RedGifs test id provided"

/-- `ErrNoStellarClientUserAgent` constant from `main.go`. -/
def ErrNoStellarClientUserAgent : String := "no Stellar client user agent provided"

/-- The `RedGifsConfig` struct from `main.go`. -/
structure RedGifsConfig where
  ListenPort : String
  RedGifsClientId : String
  RedGifsClientSecret : String
  RedGifsTestId : String
  StellarClientUserAgent : String
  deriving DecidableEq

/-- The `RedGifStreamUrlResponse` struct: JSON body with a `streamUrl` field. -/
structure RedGifStreamUrlResponse where
  Url : String
  deriving DecidableEq

/-- Outcome of an upstream `LookupStreamURL` call: the error set
distinguishes `ErrNotFound` from all other errors; success carries the
stream URL. -/
inductive LookupResult where
  | notFound : LookupResult
  | otherError : LookupResult
  | ok : String → LookupResult
  deriving DecidableEq

/-- Body of an HTTP response produced by the handler: `c.String` sends
plain text, `c.JSON` sends the serialized response struct. -/
inductive ResponseBody where
  | text : String → ResponseBody
  | json : RedGifStreamUrlResponse → ResponseBody
  deriving DecidableEq

/-- An HTTP response as produced by the echo handler: status code and body. -/
structure HttpResponse where
  status : Nat
  body : ResponseBody
  deriving DecidableEq

/-- The four arguments of an upstream `LookupStreamURL` call. -/
structure UpstreamCall where
  sourceAddress : String
  agent : String
  resourceId : String
  token : String
  deriving DecidableEq

/-- `handleGifLookup` from `main.go`: reads the credential snapshot
(parameter `accessToken`), calls `client.LookupStreamURL(c.RealIP(),
config.StellarClientUserAgent, gifId, accessToken)` and maps the outcome
to 404 / 500 / 200.  Besides the response we return the argument record
of the upstream call the handler issued. -/
def handleGifLookup (cfg : RedGifsConfig) (realIP gifId accessToken : String)
    (lookupStreamURL : String → String → String → String → LookupResult) :
    HttpResponse × UpstreamCall :=
  (match lookupStreamURL realIP cfg.StellarClientUserAgent gifId accessToken with
    | LookupResult.notFound =>
        { status := 404, body := ResponseBody.text "Could not find the stream url for the gif." }
    | LookupResult.otherError =>
        { status := 500, body := ResponseBody.text "Something went wrong requesting the gif." }
    | LookupResult.ok streamUrl =>
        { status := 200, body := ResponseBody.json { Url := streamUrl } },
   { sourceAddress := realIP, agent := cfg.StellarClientUserAgent,
     resourceId := gifId, token := accessToken })

/-- `generateRandomIPv4Address` from `main.go`: draws `rand.Uint32()`,
stores it little-endian into a 4-byte buffer and formats it as a dotted
IPv4 literal (`net.IP.String` on a 4-byte slice).  The random draw is the
parameter `r`, reduced modulo 2^32 as in Go. -/
def generateRandomIPv4Address (r : Nat) : String :=
  let ip := r % 4294967296
  toString (ip % 256) ++ "." ++ toString (ip / 256 % 256) ++ "." ++
    toString (ip / 65536 % 256) ++ "." ++ toString (ip / 16777216 % 256)

/-- Upstream outcomes of one refresh attempt: `issuance` is the result of
`client.RequestNewAccessToken()` (`some token` on success, `none` on
error), `probeOk` says whether the validation `LookupStreamURL` call for
that attempt returns without error. -/
structure AttemptEnv where
  issuance : Option String
  probeOk : Bool
  deriving DecidableEq

/-- An attempt fails when either credential issuance or the validation
probe fails. -/
def attemptFails (e : AttemptEnv) : Prop :=
  e.issuance = none ∨ e.probeOk = false

instance (e : AttemptEnv) : Decidable (attemptFails e) := by
  unfold attemptFails
  infer_instance

/-- The token an attempt contributes: `some tok` exactly when issuance
succeeded and the validation probe passed. -/
def attemptResult (e : AttemptEnv) : Option String :=
  match e.issuance with
  | none => none
  | some tok => if e.probeOk then some tok else none

/-- Reified effects of the refresh routine, in program order: an
issuance call tagged with its attempt index, a sleep (in seconds), a
validation probe tagged with its attempt index and carrying its argument
record, and the mutex-guarded store write. -/
inductive RefreshEvent where
  | issueCall : Nat → RefreshEvent
  | sleep : Nat → RefreshEvent
  | probe : Nat → UpstreamCall → RefreshEvent
  | lockAcquire : RefreshEvent
  | storeWrite : String → RefreshEvent
  | lockRelease : RefreshEvent
  deriving DecidableEq

/-- Argument record of the validation probe on attempt `i` for token
`tok`: `client.LookupStreamURL(randomIp, ServerUserAgent,
config.RedGifsTestId, accessToken)` with `randomIp` generated from the
attempt's own random draw `rng i`. -/
def probeCall (cfg : RedGifsConfig) (rng : Nat → Nat) (i : Nat) (tok : String) : UpstreamCall :=
  { sourceAddress := generateRandomIPv4Address (rng i),
    agent := ServerUserAgent,
    resourceId := cfg.RedGifsTestId,
    token := tok }

/-- Events of one iteration of the refresh loop at attempt index `i`
with backoff delay `v`, given that attempt's upstream outcomes `e`:
issuance failure sleeps the stage delay; issuance success sleeps the 5s
settle delay and probes; probe failure sleeps the stage delay; probe
success writes the token to the store under the mutex. -/
def attemptEvents (cfg : RedGifsConfig) (rng : Nat → Nat) (i v : Nat) (e : AttemptEnv) :
    List RefreshEvent :=
  match e.issuance with
  | none => [RefreshEvent.issueCall i, RefreshEvent.sleep v]
  | some tok =>
      if e.probeOk then
        [RefreshEvent.issueCall i, RefreshEvent.sleep 5,
         RefreshEvent.probe i (probeCall cfg rng i tok),
         RefreshEvent.lockAcquire, RefreshEvent.storeWrite tok, RefreshEvent.lockRelease]
      else
        [RefreshEvent.issueCall i, RefreshEvent.sleep 5,
         RefreshEvent.probe i (probeCall cfg rng i tok),
         RefreshEvent.sleep v]

/-- The retry loop of `attemptAccessTokenRefresh`: one iteration per
remaining backoff delay, breaking on the first validated token.  Returns
the final store value (the `credential.accessToken` field) and the event
trace.  `store` is the store value when the loop starts. -/
def refreshLoop (cfg : RedGifsConfig) (env : Nat → AttemptEnv) (rng : Nat → Nat) :
    Nat → List Nat → String → String × List RefreshEvent
  | _, [], store => (store, [])
  | i, v :: rest, store =>
    match attemptResult (env i) with
    | some tok => (tok, attemptEvents cfg rng i v (env i))
    | none =>
        ((refreshLoop cfg env rng (i + 1) rest store).1,
          attemptEvents cfg rng i v (env i) ++ (refreshLoop cfg env rng (i + 1) rest store).2)

/-- The fixed backoff schedule `backoff := [5]time.Duration{5, 10, 30, 60, 120}`
(multiplied by `time.Second` at each sleep). -/
def backoffSchedule : List Nat := [5, 10, 30, 60, 120]

/-- `attemptAccessTokenRefresh` from `main.go`, as a function of the
upstream outcome sequence `env`, the random-draw stream `rng` and the
store value `store` at entry. -/
def attemptAccessTokenRefresh (cfg : RedGifsConfig) (env : Nat → AttemptEnv)
    (rng : Nat → Nat) (store : String) : String × List RefreshEvent :=
  refreshLoop cfg env rng 0 backoffSchedule store

/-- Iterated refresh cycles as triggered by the weekly scheduler: the
store starts at the empty string and each cycle `k` runs
`attemptAccessTokenRefresh` with that cycle's outcomes `envs k` and
random draws `rngs k`, threading the store value. -/
def refreshCycles (cfg : RedGifsConfig) (envs : Nat → Nat → AttemptEnv)
    (rngs : Nat → Nat → Nat) : Nat → String
  | 0 => ""
  | k + 1 =>
      (attemptAccessTokenRefresh cfg (envs k) (rngs k) (refreshCycles cfg envs rngs k)).1

/-- Number of issuance calls (loop iterations started) in a trace. -/
def isIssueCall : RefreshEvent → Bool
  | RefreshEvent.issueCall _ => true
  | _ => false

/-- Count of refresh attempts recorded in a trace. -/
def countAttempts (tr : List RefreshEvent) : Nat :=
  tr.countP isIssueCall

/-- Recognizer of validation probes belonging to attempt `i`. -/
def isProbeAt (i : Nat) : RefreshEvent → Bool
  | RefreshEvent.probe j _ => j == i
  | _ => false

/-- `seg` occurs as a contiguous run inside `l`. -/
@[reducible] def ContiguousIn (seg l : List RefreshEvent) : Prop :=
  ∃ p s, l = p ++ (seg ++ s)

/-- Scans a trace and checks that every lock acquisition is immediately
followed by a store write and the lock release: the mutex is never held
across a sleep or an upstream call. -/
def lockDisciplineOk : List RefreshEvent → Bool
  | [] => true
  | RefreshEvent.lockAcquire :: RefreshEvent.storeWrite _ :: RefreshEvent.lockRelease :: tr =>
      lockDisciplineOk tr
  | RefreshEvent.lockAcquire :: _ => false
  | _ :: tr => lockDisciplineOk tr

/-- `validateConfig` from `main.go`: collects an error entry per empty
required field and returns `none` (no error) exactly when the entry list
is empty; otherwise the formatted error message. -/
def validateConfig (config : RedGifsConfig) : Option String :=
  let entries : List (String × String) :=
    (if config.ListenPort.length = 0 then [("ListenPort", ErrNoHTTPPort)] else []) ++
    (if config.RedGifsClientId.length = 0 then [("RedGifsClientId", ErrNoRedGifsClientID)] else []) ++
    (if config.RedGifsClientSecret.length = 0 then
      [("RedGifsClientSecret", ErrNoRedGifsClientKey)] else []) ++
    (if config.RedGifsTestId.length = 0 then [("RedGifsTestId", ErrNoRedGifsTestId)] else []) ++
    (if config.StellarClientUserAgent.length = 0 then
      [("StellarClientUserAgent", ErrNoStellarClientUserAgent)] else [])
  if entries.isEmpty then none
  else
    some ("config validation failed:\n" ++
      entries.foldl (fun acc entry => acc ++ entry.1 ++ ": " ++ entry.2 ++ "\n") "")

/-- Outcome of `main`'s startup sequence before serving. -/
inductive StartupResult where
  | configFileError : StartupResult
  | configInvalid : String → StartupResult
  | serving : RedGifsConfig → StartupResult
  deriving DecidableEq

/-- The startup part of `main`: a failed config load panics, a failed
`validateConfig` panics with its error, otherwise the process proceeds
to serve with the loaded config. -/
def mainStartup (loaded : Option RedGifsConfig) : StartupResult :=
  match loaded with
  | none => StartupResult.configFileError
  | some cfg =>
      match validateConfig cfg with
      | some msg => StartupResult.configInvalid msg
      | none => StartupResult.serving cfg

/-!
Concurrent credential store.  The `Credential` struct wraps
`accessToken string` behind `accessTokenMutex sync.RWMutex`.  Readers
(`handleGifLookup`) do `RLock; read; RUnlock`; the writer
(`attemptAccessTokenRefresh`) does `Lock; write; Unlock`.  To make torn
reads expressible, a Go string value is modelled by its two header words
(data, length): a write stores the two words in two separate machine
steps while holding the write lock, a read loads them in two separate
steps while holding the read lock.  The transition system below encodes
the `sync.RWMutex` contract (readers exclude the writer, the writer
excludes everyone) and the program's locking protocol.
-/

/-- Program counter of one lookup-handler reader of the credential store. -/
inductive ReaderPC where
  | idle : ReaderPC
  | rlocked : ReaderPC
  | gotWord1 : String → ReaderPC
  | gotBoth : String → Nat → ReaderPC
  deriving DecidableEq

/-- Program counter of the refresh writer; `pending` are the validated
tokens its remaining refresh cycles will write. -/
inductive WriterPC where
  | widle : List String → WriterPC
  | wlocked : String → List String → WriterPC
  | wwrote1 : String → List String → WriterPC
  | wwrote2 : List String → WriterPC
  deriving DecidableEq

/-- Whether a reader currently holds the read lock. -/
def readerHolds : ReaderPC → Bool
  | ReaderPC.idle => false
  | _ => true

/-- Whether the writer currently holds the write lock. -/
def writerHolds : WriterPC → Bool
  | WriterPC.widle _ => false
  | _ => true

/-- Tokens the writer has in hand or still pending. -/
def writerTokens : WriterPC → List String
  | WriterPC.widle p => p
  | WriterPC.wlocked t p => t :: p
  | WriterPC.wwrote1 t p => t :: p
  | WriterPC.wwrote2 p => p

/-- Global state of the concurrent store: the two header words of the
stored string, the reader pool, the writer, and the log of completed
reads (each a pair of words as observed). -/
structure StoreSys where
  word1 : String
  word2 : Nat
  readers : List ReaderPC
  writer : WriterPC
  observed : List (String × Nat)
  deriving DecidableEq

/-- Initial state: empty credential, all readers idle, writer yet to run
its cycles. -/
def initSys (numReaders : Nat) (script : List String) : StoreSys :=
  { word1 := "", word2 := 0,
    readers := List.replicate numReaders ReaderPC.idle,
    writer := WriterPC.widle script,
    observed := [] }

/-- One interleaving step of the concurrent store: any idle reader may
take the read lock while the writer does not hold the lock (readers do
not exclude each other), a lock-holding reader loads the two words one
at a time, the writer takes the write lock only when nobody holds the
lock and stores the two words of its token one at a time before
releasing. -/
inductive StoreStep : StoreSys → StoreSys → Prop where
  | rlock (s : StoreSys) (l r : List ReaderPC)
      (h : s.readers = l ++ ReaderPC.idle :: r)
      (hw : writerHolds s.writer = false) :
      StoreStep s { s with readers := l ++ ReaderPC.rlocked :: r }
  | rread1 (s : StoreSys) (l r : List ReaderPC)
      (h : s.readers = l ++ ReaderPC.rlocked :: r) :
      StoreStep s { s with readers := l ++ ReaderPC.gotWord1 s.word1 :: r }
  | rread2 (s : StoreSys) (l r : List ReaderPC) (a : String)
      (h : s.readers = l ++ ReaderPC.gotWord1 a :: r) :
      StoreStep s { s with readers := l ++ ReaderPC.gotBoth a s.word2 :: r,
                           observed := (a, s.word2) :: s.observed }
  | runlock (s : StoreSys) (l r : List ReaderPC) (a : String) (n : Nat)
      (h : s.readers = l ++ ReaderPC.gotBoth a n :: r) :
      StoreStep s { s with readers := l ++ ReaderPC.idle :: r }
  | wlock (s : StoreSys) (t : String) (rest : List String)
      (h : s.writer = WriterPC.widle (t :: rest))
      (hr : ∀ r ∈ s.readers, readerHolds r = false) :
      StoreStep s { s with writer := WriterPC.wlocked t rest }
  | wwrite1 (s : StoreSys) (t : String) (rest : List String)
      (h : s.writer = WriterPC.wlocked t rest) :
      StoreStep s { s with word1 := t, writer := WriterPC.wwrote1 t rest }
  | wwrite2 (s : StoreSys) (t : String) (rest : List String)
      (h : s.writer = WriterPC.wwrote1 t rest) :
      StoreStep s { s with word2 := t.length, writer := WriterPC.wwrote2 rest }
  | wunlock (s : StoreSys) (rest : List String)
      (h : s.writer = WriterPC.wwrote2 rest) :
      StoreStep s { s with writer := WriterPC.widle rest }

/-- Reachable states of the concurrent store from the initial state. -/
inductive StoreReach (numReaders : Nat) (script : List String) : StoreSys → Prop where
  | init : StoreReach numReaders script (initSys numReaders script)
  | step (s s2 : StoreSys) (h : StoreReach numReaders script s)
      (hs : StoreStep s s2) : StoreReach numReaders script s2

/-- A word pair is untorn: the empty initial value or the two words of a
single complete write of a script token. -/
def validPair (script : List String) (p : String × Nat) : Prop :=
  p = ("", 0) ∨ ∃ t ∈ script, p = (t, t.length)

/-- Word consistency relative to the writer's progress: inside the
writer's mid-write window only the first word has been stored; in every
other writer state the two words form an untorn pair. -/
def wordsOkFor (script : List String) (w1 : String) (w2 : Nat) : WriterPC → Prop
  | WriterPC.wwrote1 t _ => w1 = t
  | _ => validPair script (w1, w2)

/-- The store words are consistent except in the writer's mid-write
window, where the first word has been stored and the second not yet. -/
def storeWordsOk (script : List String) (s : StoreSys) : Prop :=
  wordsOkFor script s.word1 s.word2 s.writer

/-- Inductive invariant of the concurrent store: the writer's tokens
come from the script, the write lock excludes readers, the words are
consistent outside the writer's mid-write window, a reader mid-read has
seen the current first word, and every completed read observed an untorn
pair. -/
def storeInv (script : List String) (s : StoreSys) : Prop :=
  (∀ t ∈ writerTokens s.writer, t ∈ script) ∧
  (writerHolds s.writer = true → ∀ r ∈ s.readers, readerHolds r = false) ∧
  storeWordsOk script s ∧
  (∀ a, ReaderPC.gotWord1 a ∈ s.readers → a = s.word1) ∧
  (∀ p ∈ s.observed, validPair script p)

/-- A concrete configuration used to evaluate the theorems. -/
def cfgEx : RedGifsConfig :=
  { ListenPort := ":8080", RedGifsClientId := "cid", RedGifsClientSecret := "csecret",
    RedGifsTestId := "testgif", StellarClientUserAgent := "stellar-ua" }

/-- Outcome sequence where every issuance call fails. -/
def envAllFail : Nat → AttemptEnv := fun _ => { issuance := none, probeOk := false }

/-- Outcome sequence where every attempt issues `"tok"` and the probe passes. -/
def envOk : Nat → AttemptEnv := fun _ => { issuance := some "tok", probeOk := true }

/-- Outcome sequence where every attempt issues `"tok"` but the probe fails. -/
def envProbeFail : Nat → AttemptEnv := fun _ => { issuance := some "tok", probeOk := false }

/-- A concrete random-draw stream. -/
def rngEx : Nat → Nat := fun i => 16909060 + i

/-- A concrete upstream lookup capability that resolves every request. -/
def lookupEx : String → String → String → String → LookupResult :=
  fun _ _ _ _ => LookupResult.ok "https://media.example/stream.m3u8"

/-- A concrete configuration whose configured end-user agent string is
the service-identifying constant itself; every field is non-empty, so it
passes `validateConfig`. -/
def cfgBad : RedGifsConfig :=
  { ListenPort := ":8080", RedGifsClientId := "cid", RedGifsClientSecret := "csecret",
    RedGifsTestId := "testgif", StellarClientUserAgent := ServerUserAgent }

/-- The outcome mapping the specification prescribes for the lookup
handler: not-found becomes a 404 text response, any other upstream error
becomes a 500 generic text response, success becomes a 200 JSON response
whose `streamUrl` field is the upstream URL. -/
def expectedLookupResponse : LookupResult → HttpResponse
  | LookupResult.notFound =>
      { status := 404, body := ResponseBody.text "Could not find the stream url for the gif." }
  | LookupResult.otherError =>
      { status := 500, body := ResponseBody.text "Something went wrong requesting the gif." }
  | LookupResult.ok url =>
      { status := 200, body := ResponseBody.json { Url := url } }

/-! ### Basic facts about a single refresh attempt -/

theorem attemptResult_eq_none_iff (e : AttemptEnv) :
    attemptResult e = none ↔ attemptFails e := by
  cases e with
  | mk iss p => cases iss <;> cases p <;> simp [attemptResult, attemptFails]

theorem attemptResult_eq_some_iff (e : AttemptEnv) (tok : String) :
    attemptResult e = some tok ↔ (e.issuance = some tok ∧ e.probeOk = true) := by
  cases e with
  | mk iss p => cases iss <;> cases p <;> simp [attemptResult]

theorem attemptEvents_of_issueFail (cfg : RedGifsConfig) (rng : Nat → Nat) (i v : Nat)
    (e : AttemptEnv) (h1 : e.issuance = none) :
    attemptEvents cfg rng i v e = [RefreshEvent.issueCall i, RefreshEvent.sleep v] := by
  cases e with
  | mk iss p =>
      have h1b : iss = none := h1
      subst h1b
      rfl

theorem attemptEvents_of_probeFail (cfg : RedGifsConfig) (rng : Nat → Nat) (i v : Nat)
    (e : AttemptEnv) (tok : String) (h1 : e.issuance = some tok) (h2 : e.probeOk = false) :
    attemptEvents cfg rng i v e =
      [RefreshEvent.issueCall i, RefreshEvent.sleep 5,
       RefreshEvent.probe i (probeCall cfg rng i tok), RefreshEvent.sleep v] := by
  cases e with
  | mk iss p =>
      have h1b : iss = some tok := h1
      have h2b : p = false := h2
      subst h1b
      subst h2b
      rfl

theorem attemptEvents_of_success (cfg : RedGifsConfig) (rng : Nat → Nat) (i v : Nat)
    (e : AttemptEnv) (tok : String) (h1 : e.issuance = some tok) (h2 : e.probeOk = true) :
    attemptEvents cfg rng i v e =
      [RefreshEvent.issueCall i, RefreshEvent.sleep 5,
       RefreshEvent.probe i (probeCall cfg rng i tok),
       RefreshEvent.lockAcquire, RefreshEvent.storeWrite tok, RefreshEvent.lockRelease] := by
  cases e with
  | mk iss p =>
      have h1b : iss = some tok := h1
      have h2b : p = true := h2
      subst h1b
      subst h2b
      rfl

theorem countAttempts_attemptEvents (cfg : RedGifsConfig) (rng : Nat → Nat) (i v : Nat)
    (e : AttemptEnv) : countAttempts (attemptEvents cfg rng i v e) = 1 := by
  cases e with
  | mk iss p =>
      cases iss <;> cases p <;>
        simp [attemptEvents, countAttempts, List.countP_cons, List.countP_nil, isIssueCall]

theorem storeWrite_not_mem_attemptEvents (cfg : RedGifsConfig) (rng : Nat → Nat) (i v : Nat)
    (e : AttemptEnv) (h : attemptResult e = none) (tok : String) :
    RefreshEvent.storeWrite tok ∉ attemptEvents cfg rng i v e := by
  cases e with
  | mk iss p => cases iss <;> cases p <;> simp_all [attemptResult, attemptEvents]

theorem storeWrite_mem_attemptEvents_iff (cfg : RedGifsConfig) (rng : Nat → Nat) (i v : Nat)
    (e : AttemptEnv) (tok t : String) (h : attemptResult e = some t) :
    (RefreshEvent.storeWrite tok ∈ attemptEvents cfg rng i v e ↔ tok = t) := by
  cases e with
  | mk iss p => cases iss <;> cases p <;> simp_all [attemptResult, attemptEvents]

theorem issueCall_mem_attemptEvents_iff (cfg : RedGifsConfig) (rng : Nat → Nat) (i v : Nat)
    (e : AttemptEnv) (j : Nat) :
    (RefreshEvent.issueCall j ∈ attemptEvents cfg rng i v e ↔ j = i) := by
  cases e with
  | mk iss p => cases iss <;> cases p <;> simp [attemptEvents]

theorem probe_mem_attemptEvents (cfg : RedGifsConfig) (rng : Nat → Nat) (i v : Nat)
    (e : AttemptEnv) (j : Nat) (c : UpstreamCall)
    (h : RefreshEvent.probe j c ∈ attemptEvents cfg rng i v e) :
    j = i ∧ ∃ tok : String, e.issuance = some tok ∧ c = probeCall cfg rng i tok := by
  cases e with
  | mk iss p => cases iss <;> cases p <;> simp_all [attemptEvents]

theorem probe_mem_attemptEvents_of_some (cfg : RedGifsConfig) (rng : Nat → Nat) (i v : Nat)
    (e : AttemptEnv) (tok : String) (h : e.issuance = some tok) :
    RefreshEvent.probe i (probeCall cfg rng i tok) ∈ attemptEvents cfg rng i v e := by
  cases e with
  | mk iss p =>
      have h1b : iss = some tok := h
      subst h1b
      cases p <;> simp [attemptEvents]

theorem countProbeAt_attemptEvents_self (cfg : RedGifsConfig) (rng : Nat → Nat) (i v : Nat)
    (e : AttemptEnv) (tok : String) (h : e.issuance = some tok) :
    (attemptEvents cfg rng i v e).countP (isProbeAt i) = 1 := by
  cases e with
  | mk iss p =>
      have h1b : iss = some tok := h
      subst h1b
      cases p <;>
        simp [attemptEvents, List.countP_cons, List.countP_nil, isProbeAt]

theorem countProbeAt_attemptEvents_zero (cfg : RedGifsConfig) (rng : Nat → Nat) (i v : Nat)
    (e : AttemptEnv) (j : Nat) (h : j ≠ i) :
    (attemptEvents cfg rng i v e).countP (isProbeAt j) = 0 := by
  cases e with
  | mk iss p =>
      cases iss <;> cases p <;>
        simp [attemptEvents, List.countP_cons, List.countP_nil, isProbeAt] <;>
        omega

theorem lockDisciplineOk_attemptEvents (cfg : RedGifsConfig) (rng : Nat → Nat) (i v : Nat)
    (e : AttemptEnv) : lockDisciplineOk (attemptEvents cfg rng i v e) = true := by
  cases e with
  | mk iss p => cases iss <;> cases p <;> rfl

theorem lockDisciplineOk_attemptEvents_append (cfg : RedGifsConfig) (rng : Nat → Nat)
    (i v : Nat) (e : AttemptEnv) (tr : List RefreshEvent) :
    lockDisciplineOk (attemptEvents cfg rng i v e ++ tr) = lockDisciplineOk tr := by
  cases e with
  | mk iss p => cases iss <;> cases p <;> rfl

/-! ### Unfolding equations of the refresh loop -/

theorem refreshLoop_nil (cfg : RedGifsConfig) (env : Nat → AttemptEnv) (rng : Nat → Nat)
    (i : Nat) (store : String) : refreshLoop cfg env rng i [] store = (store, []) := rfl

theorem refreshLoop_cons_some (cfg : RedGifsConfig) (env : Nat → AttemptEnv) (rng : Nat → Nat)
    (i v : Nat) (rest : List Nat) (store tok : String) (h : attemptResult (env i) = some tok) :
    refreshLoop cfg env rng i (v :: rest) store = (tok, attemptEvents cfg rng i v (env i)) := by
  simp [refreshLoop, h]

theorem refreshLoop_cons_none (cfg : RedGifsConfig) (env : Nat → AttemptEnv) (rng : Nat → Nat)
    (i v : Nat) (rest : List Nat) (store : String) (h : attemptResult (env i) = none) :
    refreshLoop cfg env rng i (v :: rest) store =
      ((refreshLoop cfg env rng (i + 1) rest store).1,
        attemptEvents cfg rng i v (env i) ++ (refreshLoop cfg env rng (i + 1) rest store).2) := by
  simp [refreshLoop, h]

/-! ### Global facts about the refresh loop trace -/

theorem countAttempts_refreshLoop (cfg : RedGifsConfig) (env : Nat → AttemptEnv)
    (rng : Nat → Nat) :
    ∀ (ds : List Nat) (i : Nat) (store : String),
      countAttempts (refreshLoop cfg env rng i ds store).2 ≤ ds.length := by
  intro ds
  induction ds with
  | nil =>
      intro i store
      simp [refreshLoop_nil, countAttempts]
  | cons v rest ih =>
      intro i store
      cases h : attemptResult (env i) with
      | some tok =>
          rw [refreshLoop_cons_some cfg env rng i v rest store tok h]
          have h1 := countAttempts_attemptEvents cfg rng i v (env i)
          simp only [List.length_cons]
          omega
      | none =>
          rw [refreshLoop_cons_none cfg env rng i v rest store h]
          have h1 := countAttempts_attemptEvents cfg rng i v (env i)
          have h2 := ih (i + 1) store
          rw [countAttempts] at h1 h2 ⊢
          rw [List.countP_append]
          simp only [List.length_cons]
          omega

theorem noWrite_iff_allFail (cfg : RedGifsConfig) (env : Nat → AttemptEnv) (rng : Nat → Nat) :
    ∀ (ds : List Nat) (i : Nat) (store : String),
      ((∀ tok : String, RefreshEvent.storeWrite tok ∉ (refreshLoop cfg env rng i ds store).2) ↔
        ∀ j : Nat, j < ds.length → attemptFails (env (i + j))) := by
  intro ds
  induction ds with
  | nil =>
      intro i store
      simp [refreshLoop_nil]
  | cons v rest ih =>
      intro i store
      cases h : attemptResult (env i) with
      | some tok =>
          rw [refreshLoop_cons_some cfg env rng i v rest store tok h]
          apply iff_of_false
          · intro hw
            exact hw tok
              ((storeWrite_mem_attemptEvents_iff cfg rng i v (env i) tok tok h).mpr rfl)
          · intro hall
            have h0 := hall 0 (by simp only [List.length_cons]; omega)
            rw [Nat.add_zero] at h0
            rw [← attemptResult_eq_none_iff] at h0
            rw [h] at h0
            exact Option.noConfusion h0
      | none =>
          rw [refreshLoop_cons_none cfg env rng i v rest store h]
          have hfail : attemptFails (env i) := (attemptResult_eq_none_iff (env i)).mp h
          constructor
          · intro hw j hj
            cases j with
            | zero =>
                rw [Nat.add_zero]
                exact hfail
            | succ j2 =>
                have hw2 : ∀ tok : String,
                    RefreshEvent.storeWrite tok ∉ (refreshLoop cfg env rng (i + 1) rest store).2 := by
                  intro tok hmem
                  exact hw tok (List.mem_append_right _ hmem)
                have hidx : i + (j2 + 1) = (i + 1) + j2 := by omega
                rw [hidx]
                refine (ih (i + 1) store).mp hw2 j2 ?_
                simp only [List.length_cons] at hj
                omega
          · intro hall tok hmem
            rcases List.mem_append.mp hmem with h1 | h2
            · exact storeWrite_not_mem_attemptEvents cfg rng i v (env i) h tok h1
            · refine (ih (i + 1) store).mpr ?_ tok h2
              intro j hj
              have hidx : (i + 1) + j = i + (j + 1) := by omega
              rw [hidx]
              refine hall (j + 1) ?_
              simp only [List.length_cons]
              omega

theorem result_of_allFail (cfg : RedGifsConfig) (env : Nat → AttemptEnv) (rng : Nat → Nat) :
    ∀ (ds : List Nat) (i : Nat) (store : String),
      (∀ j : Nat, j < ds.length → attemptFails (env (i + j))) →
      (refreshLoop cfg env rng i ds store).1 = store := by
  intro ds
  induction ds with
  | nil =>
      intro i store _
      rfl
  | cons v rest ih =>
      intro i store hall
      have h0 : attemptResult (env i) = none := by
        rw [attemptResult_eq_none_iff]
        have := hall 0 (by simp only [List.length_cons]; omega)
        rwa [Nat.add_zero] at this
      rw [refreshLoop_cons_none cfg env rng i v rest store h0]
      refine ih (i + 1) store ?_
      intro j hj
      have hidx : (i + 1) + j = i + (j + 1) := by omega
      rw [hidx]
      refine hall (j + 1) ?_
      simp only [List.length_cons]
      omega

theorem refreshLoop_result_cases (cfg : RedGifsConfig) (env : Nat → AttemptEnv)
    (rng : Nat → Nat) :
    ∀ (ds : List Nat) (i : Nat) (store : String),
      (refreshLoop cfg env rng i ds store).1 = store ∨
        ∃ j : Nat, j < ds.length ∧
          attemptResult (env (i + j)) = some (refreshLoop cfg env rng i ds store).1 ∧
          RefreshEvent.probe (i + j)
              (probeCall cfg rng (i + j) (refreshLoop cfg env rng i ds store).1) ∈
            (refreshLoop cfg env rng i ds store).2 := by
  intro ds
  induction ds with
  | nil =>
      intro i store
      exact Or.inl rfl
  | cons v rest ih =>
      intro i store
      cases h : attemptResult (env i) with
      | some tok =>
          right
          rw [refreshLoop_cons_some cfg env rng i v rest store tok h]
          refine ⟨0, by simp only [List.length_cons]; omega, ?_, ?_⟩
          · rw [Nat.add_zero]
            exact h
          · rw [Nat.add_zero]
            exact probe_mem_attemptEvents_of_some cfg rng i v (env i) tok
              ((attemptResult_eq_some_iff (env i) tok).mp h).1
      | none =>
          rw [refreshLoop_cons_none cfg env rng i v rest store h]
          rcases ih (i + 1) store with h1 | ⟨j, hj, hres, hmem⟩
          · exact Or.inl h1
          · right
            refine ⟨j + 1, by simp only [List.length_cons]; omega, ?_, ?_⟩
            · have hidx : i + (j + 1) = (i + 1) + j := by omega
              rw [hidx]
              exact hres
            · have hidx : i + (j + 1) = (i + 1) + j := by omega
              rw [hidx]
              exact List.mem_append_right _ hmem

theorem storeWrite_mem_refreshLoop (cfg : RedGifsConfig) (env : Nat → AttemptEnv)
    (rng : Nat → Nat) :
    ∀ (ds : List Nat) (i : Nat) (store tok : String),
      RefreshEvent.storeWrite tok ∈ (refreshLoop cfg env rng i ds store).2 →
      ∃ j : Nat, j < ds.length ∧ attemptResult (env (i + j)) = some tok ∧
        RefreshEvent.probe (i + j) (probeCall cfg rng (i + j) tok) ∈
          (refreshLoop cfg env rng i ds store).2 := by
  intro ds
  induction ds with
  | nil =>
      intro i store tok hmem
      rw [refreshLoop_nil] at hmem
      simp at hmem
  | cons v rest ih =>
      intro i store tok hmem
      cases h : attemptResult (env i) with
      | some t =>
          rw [refreshLoop_cons_some cfg env rng i v rest store t h] at hmem ⊢
          have htok : tok = t :=
            (storeWrite_mem_attemptEvents_iff cfg rng i v (env i) tok t h).mp hmem
          subst htok
          refine ⟨0, by simp only [List.length_cons]; omega, ?_, ?_⟩
          · rw [Nat.add_zero]
            exact h
          · rw [Nat.add_zero]
            exact probe_mem_attemptEvents_of_some cfg rng i v (env i) tok
              ((attemptResult_eq_some_iff (env i) tok).mp h).1
      | none =>
          rw [refreshLoop_cons_none cfg env rng i v rest store h] at hmem ⊢
          rcases List.mem_append.mp hmem with h1 | h2
          · exact absurd h1 (storeWrite_not_mem_attemptEvents cfg rng i v (env i) h tok)
          · rcases ih (i + 1) store tok h2 with ⟨j, hj, hres, hpm⟩
            refine ⟨j + 1, by simp only [List.length_cons]; omega, ?_, ?_⟩
            · have hidx : i + (j + 1) = (i + 1) + j := by omega
              rw [hidx]
              exact hres
            · have hidx : i + (j + 1) = (i + 1) + j := by omega
              rw [hidx]
              exact List.mem_append_right _ hpm

theorem refreshLoop_tag_bounds (cfg : RedGifsConfig) (env : Nat → AttemptEnv)
    (rng : Nat → Nat) :
    ∀ (ds : List Nat) (i : Nat) (store : String),
      (∀ j : Nat, RefreshEvent.issueCall j ∈ (refreshLoop cfg env rng i ds store).2 →
        i ≤ j ∧ j < i + ds.length) ∧
      (∀ (j : Nat) (c : UpstreamCall),
        RefreshEvent.probe j c ∈ (refreshLoop cfg env rng i ds store).2 →
        i ≤ j ∧ j < i + ds.length) := by
  intro ds
  induction ds with
  | nil =>
      intro i store
      refine ⟨?_, ?_⟩
      · intro j hmem
        rw [refreshLoop_nil] at hmem
        simp at hmem
      · intro j c hmem
        rw [refreshLoop_nil] at hmem
        simp at hmem
  | cons v rest ih =>
      intro i store
      cases h : attemptResult (env i) with
      | some tok =>
          rw [refreshLoop_cons_some cfg env rng i v rest store tok h]
          refine ⟨?_, ?_⟩
          · intro j hmem
            have hj := (issueCall_mem_attemptEvents_iff cfg rng i v (env i) j).mp hmem
            subst hj
            simp only [List.length_cons]
            omega
          · intro j c hmem
            rcases probe_mem_attemptEvents cfg rng i v (env i) j c hmem with ⟨hj, -⟩
            subst hj
            simp only [List.length_cons]
            omega
      | none =>
          rw [refreshLoop_cons_none cfg env rng i v rest store h]
          rcases ih (i + 1) store with ⟨ih1, ih2⟩
          refine ⟨?_, ?_⟩
          · intro j hmem
            rcases List.mem_append.mp hmem with h1 | h2
            · have hj := (issueCall_mem_attemptEvents_iff cfg rng i v (env i) j).mp h1
              subst hj
              simp only [List.length_cons]
              omega
            · have hb := ih1 j h2
              simp only [List.length_cons]
              omega
          · intro j c hmem
            rcases List.mem_append.mp hmem with h1 | h2
            · rcases probe_mem_attemptEvents cfg rng i v (env i) j c h1 with ⟨hj, -⟩
              subst hj
              simp only [List.length_cons]
              omega
            · have hb := ih2 j c h2
              simp only [List.length_cons]
              omega

theorem probe_agent_refreshLoop (cfg : RedGifsConfig) (env : Nat → AttemptEnv)
    (rng : Nat → Nat) :
    ∀ (ds : List Nat) (i : Nat) (store : String) (j : Nat) (c : UpstreamCall),
      RefreshEvent.probe j c ∈ (refreshLoop cfg env rng i ds store).2 →
      c.agent = ServerUserAgent := by
  intro ds
  induction ds with
  | nil =>
      intro i store j c hmem
      rw [refreshLoop_nil] at hmem
      simp at hmem
  | cons v rest ih =>
      intro i store j c hmem
      cases h : attemptResult (env i) with
      | some tok =>
          rw [refreshLoop_cons_some cfg env rng i v rest store tok h] at hmem
          rcases probe_mem_attemptEvents cfg rng i v (env i) j c hmem with ⟨-, t, -, hc⟩
          rw [hc]
          rfl
      | none =>
          rw [refreshLoop_cons_none cfg env rng i v rest store h] at hmem
          rcases List.mem_append.mp hmem with h1 | h2
          · rcases probe_mem_attemptEvents cfg rng i v (env i) j c h1 with ⟨-, t, -, hc⟩
            rw [hc]
            rfl
          · exact ih (i + 1) store j c h2

theorem countProbeAt_zero_of_lt (cfg : RedGifsConfig) (env : Nat → AttemptEnv)
    (rng : Nat → Nat) (ds : List Nat) (i : Nat) (store : String) (j : Nat) (hj : j < i) :
    ((refreshLoop cfg env rng i ds store).2.countP (isProbeAt j)) = 0 := by
  rw [List.countP_eq_zero]
  intro a ha
  cases a with
  | probe k c =>
      have hb := (refreshLoop_tag_bounds cfg env rng ds i store).2 k c ha
      simp only [isProbeAt, beq_iff_eq]
      omega
  | issueCall k => simp [isProbeAt]
  | sleep n => simp [isProbeAt]
  | lockAcquire => simp [isProbeAt]
  | storeWrite t => simp [isProbeAt]
  | lockRelease => simp [isProbeAt]

theorem lockDisciplineOk_refreshLoop (cfg : RedGifsConfig) (env : Nat → AttemptEnv)
    (rng : Nat → Nat) :
    ∀ (ds : List Nat) (i : Nat) (store : String),
      lockDisciplineOk (refreshLoop cfg env rng i ds store).2 = true := by
  intro ds
  induction ds with
  | nil =>
      intro i store
      rfl
  | cons v rest ih =>
      intro i store
      cases h : attemptResult (env i) with
      | some tok =>
          rw [refreshLoop_cons_some cfg env rng i v rest store tok h]
          exact lockDisciplineOk_attemptEvents cfg rng i v (env i)
      | none =>
          rw [refreshLoop_cons_none cfg env rng i v rest store h]
          exact (lockDisciplineOk_attemptEvents_append cfg rng i v (env i)
            (refreshLoop cfg env rng (i + 1) rest store).2).trans (ih (i + 1) store)

theorem ContiguousIn_append_left (seg t blk : List RefreshEvent)
    (h : ContiguousIn seg t) : ContiguousIn seg (blk ++ t) := by
  obtain ⟨p, s, rfl⟩ := h
  exact ⟨blk ++ p, s, by simp [List.append_assoc]⟩

theorem settle_probe_shape (cfg : RedGifsConfig) (env : Nat → AttemptEnv) (rng : Nat → Nat) :
    ∀ (ds : List Nat) (i : Nat) (store : String) (j : Nat) (tok : String),
      RefreshEvent.issueCall j ∈ (refreshLoop cfg env rng i ds store).2 →
      (env j).issuance = some tok →
      ((refreshLoop cfg env rng i ds store).2.countP (isProbeAt j) = 1 ∧
        ContiguousIn
          [RefreshEvent.issueCall j, RefreshEvent.sleep 5,
            RefreshEvent.probe j (probeCall cfg rng j tok)]
          (refreshLoop cfg env rng i ds store).2) := by
  intro ds
  induction ds with
  | nil =>
      intro i store j tok hmem _
      rw [refreshLoop_nil] at hmem
      simp at hmem
  | cons v rest ih =>
      intro i store j tok hmem hiss
      cases h : attemptResult (env i) with
      | some t =>
          rw [refreshLoop_cons_some cfg env rng i v rest store t h] at hmem ⊢
          have hji : j = i := (issueCall_mem_attemptEvents_iff cfg rng i v (env i) j).mp hmem
          subst hji
          have hs := (attemptResult_eq_some_iff (env j) t).mp h
          have htok : t = tok := Option.some.inj (hs.1.symm.trans hiss)
          subst htok
          refine ⟨countProbeAt_attemptEvents_self cfg rng j v (env j) t hs.1, ?_⟩
          refine ⟨[], [RefreshEvent.lockAcquire, RefreshEvent.storeWrite t,
            RefreshEvent.lockRelease], ?_⟩
          rw [attemptEvents_of_success cfg rng j v (env j) t hs.1 hs.2]
          rfl
      | none =>
          rw [refreshLoop_cons_none cfg env rng i v rest store h] at hmem ⊢
          rcases List.mem_append.mp hmem with h1 | h2
          · have hji : j = i := (issueCall_mem_attemptEvents_iff cfg rng i v (env i) j).mp h1
            subst hji
            have hpf : (env j).probeOk = false := by
              rcases (attemptResult_eq_none_iff (env j)).mp h with hnone | hp
              · rw [hiss] at hnone
                exact Option.noConfusion hnone
              · exact hp
            constructor
            · rw [List.countP_append,
                countProbeAt_attemptEvents_self cfg rng j v (env j) tok hiss,
                countProbeAt_zero_of_lt cfg env rng rest (j + 1) store j (by omega)]
            · refine ⟨[], [RefreshEvent.sleep v] ++ (refreshLoop cfg env rng (j + 1) rest store).2, ?_⟩
              rw [attemptEvents_of_probeFail cfg rng j v (env j) tok hiss hpf]
              rfl
          · have hge : (i + 1) ≤ j :=
              ((refreshLoop_tag_bounds cfg env rng rest (i + 1) store).1 j h2).1
            obtain ⟨hcnt, hconti⟩ := ih (i + 1) store j tok h2 hiss
            constructor
            · rw [List.countP_append, hcnt,
                countProbeAt_attemptEvents_zero cfg rng i v (env i) j (by omega)]
            · exact ContiguousIn_append_left _ _ _ hconti

theorem backoff_sleep_shape (cfg : RedGifsConfig) (env : Nat → AttemptEnv) (rng : Nat → Nat) :
    ∀ (ds : List Nat) (i : Nat) (store : String) (j : Nat),
      RefreshEvent.issueCall (i + j) ∈ (refreshLoop cfg env rng i ds store).2 →
      attemptFails (env (i + j)) →
      (((env (i + j)).issuance = none →
          ContiguousIn [RefreshEvent.issueCall (i + j), RefreshEvent.sleep (ds.getD j 0)]
            (refreshLoop cfg env rng i ds store).2) ∧
        (∀ tok : String, (env (i + j)).issuance = some tok →
          ContiguousIn
            [RefreshEvent.probe (i + j) (probeCall cfg rng (i + j) tok),
              RefreshEvent.sleep (ds.getD j 0)]
            (refreshLoop cfg env rng i ds store).2)) := by
  intro ds
  induction ds with
  | nil =>
      intro i store j hmem _
      rw [refreshLoop_nil] at hmem
      simp at hmem
  | cons v rest ih =>
      intro i store j hmem hfail
      cases h : attemptResult (env i) with
      | some t =>
          exfalso
          rw [refreshLoop_cons_some cfg env rng i v rest store t h] at hmem
          have hji : i + j = i := (issueCall_mem_attemptEvents_iff cfg rng i v (env i) (i + j)).mp hmem
          have h0 := (attemptResult_eq_none_iff (env (i + j))).mpr hfail
          rw [hji] at h0
          rw [h] at h0
          exact Option.noConfusion h0
      | none =>
          rw [refreshLoop_cons_none cfg env rng i v rest store h] at hmem ⊢
          rcases List.mem_append.mp hmem with h1 | h2
          · have hji : i + j = i :=
              (issueCall_mem_attemptEvents_iff cfg rng i v (env i) (i + j)).mp h1
            have hj0 : j = 0 := by omega
            subst hj0
            simp only [Nat.add_zero, List.getD_cons_zero] at hfail ⊢
            constructor
            · intro hnone
              refine ⟨[], (refreshLoop cfg env rng (i + 1) rest store).2, ?_⟩
              rw [attemptEvents_of_issueFail cfg rng i v (env i) hnone]
              rfl
            · intro tok hsome
              have hpf : (env i).probeOk = false := by
                rcases hfail with hnone | hp
                · rw [hsome] at hnone
                  exact Option.noConfusion hnone
                · exact hp
              refine ⟨[RefreshEvent.issueCall i, RefreshEvent.sleep 5],
                (refreshLoop cfg env rng (i + 1) rest store).2, ?_⟩
              rw [attemptEvents_of_probeFail cfg rng i v (env i) tok hsome hpf]
              rfl
          · have hge : (i + 1) ≤ i + j :=
              ((refreshLoop_tag_bounds cfg env rng rest (i + 1) store).1 (i + j) h2).1
            obtain ⟨j2, hj2⟩ : ∃ j2 : Nat, j = j2 + 1 := ⟨j - 1, by omega⟩
            subst hj2
            have hidx : i + (j2 + 1) = (i + 1) + j2 := by omega
            rw [hidx] at hmem hfail h2 ⊢
            simp only [List.getD_cons_succ]
            obtain ⟨ha, hb⟩ := ih (i + 1) store j2 h2 hfail
            exact ⟨fun hnone => ContiguousIn_append_left _ _ _ (ha hnone),
              fun tok hsome => ContiguousIn_append_left _ _ _ (hb tok hsome)⟩

theorem final_sleep_shape (cfg : RedGifsConfig) (env : Nat → AttemptEnv) (rng : Nat → Nat)
    (d : Nat) :
    ∀ (ds : List Nat) (i : Nat) (store : String),
      (∀ j : Nat, j < ds.length + 1 → attemptFails (env (i + j))) →
      ∃ p : List RefreshEvent,
        (refreshLoop cfg env rng i (ds ++ [d]) store).2 = p ++ [RefreshEvent.sleep d] := by
  intro ds
  induction ds with
  | nil =>
      intro i store hall
      have hf : attemptFails (env i) := by
        have := hall 0 (by omega)
        rwa [Nat.add_zero] at this
      have h0 : attemptResult (env i) = none := (attemptResult_eq_none_iff (env i)).mpr hf
      rw [List.nil_append]
      rw [refreshLoop_cons_none cfg env rng i d [] store h0]
      rcases hiss : (env i).issuance with - | tok
      · refine ⟨[RefreshEvent.issueCall i], ?_⟩
        show attemptEvents cfg rng i d (env i) ++ (refreshLoop cfg env rng (i + 1) [] store).2 =
          [RefreshEvent.issueCall i] ++ [RefreshEvent.sleep d]
        rw [attemptEvents_of_issueFail cfg rng i d (env i) hiss, refreshLoop_nil]
        rfl
      · have hpf : (env i).probeOk = false := by
          rcases hf with hnone | hp
          · rw [hiss] at hnone
            exact Option.noConfusion hnone
          · exact hp
        refine ⟨[RefreshEvent.issueCall i, RefreshEvent.sleep 5,
          RefreshEvent.probe i (probeCall cfg rng i tok)], ?_⟩
        show attemptEvents cfg rng i d (env i) ++ (refreshLoop cfg env rng (i + 1) [] store).2 =
          [RefreshEvent.issueCall i, RefreshEvent.sleep 5,
            RefreshEvent.probe i (probeCall cfg rng i tok)] ++ [RefreshEvent.sleep d]
        rw [attemptEvents_of_probeFail cfg rng i d (env i) tok hiss hpf, refreshLoop_nil]
        rfl
  | cons v rest ih =>
      intro i store hall
      have hf : attemptFails (env i) := by
        have := hall 0 (by omega)
        rwa [Nat.add_zero] at this
      have h0 : attemptResult (env i) = none := (attemptResult_eq_none_iff (env i)).mpr hf
      rw [List.cons_append]
      rw [refreshLoop_cons_none cfg env rng i v (rest ++ [d]) store h0]
      rcases ih (i + 1) store (fun j hj => by
        have hidx : (i + 1) + j = i + (j + 1) := by omega
        rw [hidx]
        refine hall (j + 1) ?_
        simp only [List.length_cons]
        omega) with ⟨p, hp⟩
      refine ⟨attemptEvents cfg rng i v (env i) ++ p, ?_⟩
      show attemptEvents cfg rng i v (env i) ++
          (refreshLoop cfg env rng (i + 1) (rest ++ [d]) store).2 =
        (attemptEvents cfg rng i v (env i) ++ p) ++ [RefreshEvent.sleep d]
      rw [hp, List.append_assoc]

theorem refreshCycles_inv (cfg : RedGifsConfig) (envs : Nat → Nat → AttemptEnv)
    (rngs : Nat → Nat → Nat) :
    ∀ k : Nat, refreshCycles cfg envs rngs k = "" ∨
      ∃ c : Nat, c < k ∧ ∃ i : Nat, i < 5 ∧
        (envs c i).issuance = some (refreshCycles cfg envs rngs k) ∧
        (envs c i).probeOk = true := by
  intro k
  induction k with
  | zero => exact Or.inl rfl
  | succ k2 ih =>
      rcases refreshLoop_result_cases cfg (envs k2) (rngs k2) backoffSchedule 0
          (refreshCycles cfg envs rngs k2) with h1 | ⟨j, hj, hres, -⟩
      · have hres2 : refreshCycles cfg envs rngs (k2 + 1) = refreshCycles cfg envs rngs k2 := h1
        rw [hres2]
        rcases ih with hi | ⟨c, hc, i, hi5, hsome, hpok⟩
        · exact Or.inl hi
        · exact Or.inr ⟨c, by omega, i, hi5, hsome, hpok⟩
      · right
        rw [Nat.zero_add] at hres
        obtain ⟨hsome, hpok⟩ := (attemptResult_eq_some_iff ((envs k2) j)
          (refreshCycles cfg envs rngs (k2 + 1))).mp hres
        exact ⟨k2, by omega, j, hj, hsome, hpok⟩

theorem string_length_eq_zero_iff (s : String) : s.length = 0 ↔ s = "" := by
  constructor
  · intro h
    cases s with
    | mk data =>
        cases data with
        | nil => rfl
        | cons c cs => simp [String.length] at h
  · intro h
    subst h
    rfl

/-! ### The concurrent store invariant -/

theorem mem_of_mem_replace {α : Type} (pcOld : α) {l r : List α} {pcNew x : α}
    (h : x ∈ l ++ pcNew :: r) : x = pcNew ∨ x ∈ l ++ pcOld :: r := by
  rcases List.mem_append.mp h with h1 | h2
  · exact Or.inr (List.mem_append_left _ h1)
  · rcases List.mem_cons.mp h2 with h3 | h4
    · exact Or.inl h3
    · exact Or.inr (List.mem_append_right _ (List.mem_cons_of_mem _ h4))

theorem storeInv_init (numReaders : Nat) (script : List String) :
    storeInv script (initSys numReaders script) := by
  refine ⟨?_, ?_, ?_, ?_, ?_⟩
  · intro t ht
    exact ht
  · intro hw
    exact Bool.noConfusion hw
  · exact Or.inl rfl
  · intro a ha
    have := List.eq_of_mem_replicate ha
    exact ReaderPC.noConfusion this
  · intro p hp
    simp [initSys] at hp

theorem storeInv_step (script : List String) (s s2 : StoreSys)
    (hinv : storeInv script s) (hs : StoreStep s s2) : storeInv script s2 := by
  obtain ⟨h1, h2, h3, h4, h5⟩ := hinv
  cases hs with
  | rlock l r hre hw =>
      refine ⟨h1, ?_, h3, ?_, h5⟩
      · intro hwh
        exact Bool.noConfusion (hw.symm.trans hwh)
      · intro a ha
        rcases mem_of_mem_replace ReaderPC.idle ha with hnew | hold
        · exact ReaderPC.noConfusion hnew
        · refine h4 a ?_
          rw [hre]
          exact hold
  | rread1 l r hre =>
      have hwf : writerHolds s.writer = false := by
        cases hww : writerHolds s.writer
        · rfl
        · exfalso
          have := h2 hww ReaderPC.rlocked
            (by rw [hre]; exact List.mem_append_right _ (List.mem_cons_self _ _))
          exact Bool.noConfusion this
      refine ⟨h1, ?_, h3, ?_, h5⟩
      · intro hwh
        exact Bool.noConfusion (hwf.symm.trans hwh)
      · intro a ha
        rcases mem_of_mem_replace ReaderPC.rlocked ha with hnew | hold
        · injection hnew with haw
        · refine h4 a ?_
          rw [hre]
          exact hold
  | rread2 l r a hre =>
      have hmemr : ReaderPC.gotWord1 a ∈ s.readers := by
        rw [hre]
        exact List.mem_append_right _ (List.mem_cons_self _ _)
      have hwf : writerHolds s.writer = false := by
        cases hww : writerHolds s.writer
        · rfl
        · exfalso
          have := h2 hww (ReaderPC.gotWord1 a) hmemr
          exact Bool.noConfusion this
      have haw : a = s.word1 := h4 a hmemr
      have hvp : validPair script (s.word1, s.word2) := by
        have h3b := h3
        cases hwp : s.writer with
        | wwrote1 t pend =>
            exfalso
            rw [hwp] at hwf
            exact Bool.noConfusion hwf
        | widle pend =>
            simp only [storeWordsOk, hwp, wordsOkFor] at h3b
            exact h3b
        | wlocked t pend =>
            exfalso
            rw [hwp] at hwf
            exact Bool.noConfusion hwf
        | wwrote2 pend =>
            exfalso
            rw [hwp] at hwf
            exact Bool.noConfusion hwf
      refine ⟨h1, ?_, h3, ?_, ?_⟩
      · intro hwh
        exact Bool.noConfusion (hwf.symm.trans hwh)
      · intro a2 ha2
        rcases mem_of_mem_replace (ReaderPC.gotWord1 a) ha2 with hnew | hold
        · exact ReaderPC.noConfusion hnew
        · refine h4 a2 ?_
          rw [hre]
          exact hold
      · intro p hp
        rcases List.mem_cons.mp hp with hpe | hpo
        · rw [hpe, haw]
          exact hvp
        · exact h5 p hpo
  | runlock l r a n hre =>
      have hwf : writerHolds s.writer = false := by
        cases hww : writerHolds s.writer
        · rfl
        · exfalso
          have := h2 hww (ReaderPC.gotBoth a n)
            (by rw [hre]; exact List.mem_append_right _ (List.mem_cons_self _ _))
          exact Bool.noConfusion this
      refine ⟨h1, ?_, h3, ?_, h5⟩
      · intro hwh
        exact Bool.noConfusion (hwf.symm.trans hwh)
      · intro a2 ha2
        rcases mem_of_mem_replace (ReaderPC.gotBoth a n) ha2 with hnew | hold
        · exact ReaderPC.noConfusion hnew
        · refine h4 a2 ?_
          rw [hre]
          exact hold
  | wlock t rest hwr hr =>
      refine ⟨?_, ?_, ?_, h4, h5⟩
      · intro t2 ht2
        refine h1 t2 ?_
        rw [hwr]
        exact ht2
      · intro _
        exact hr
      · have h3b := h3
        simp only [storeWordsOk, hwr, wordsOkFor] at h3b
        show wordsOkFor script s.word1 s.word2 (WriterPC.wlocked t rest)
        simp only [wordsOkFor]
        exact h3b
  | wwrite1 t rest hwr =>
      have hwh : writerHolds s.writer = true := by
        rw [hwr]
        rfl
      refine ⟨?_, ?_, ?_, ?_, h5⟩
      · intro t2 ht2
        refine h1 t2 ?_
        rw [hwr]
        exact ht2
      · intro _
        exact h2 hwh
      · show wordsOkFor script t s.word2 (WriterPC.wwrote1 t rest)
        simp only [wordsOkFor]
      · intro a ha
        exfalso
        have := h2 hwh (ReaderPC.gotWord1 a) ha
        exact Bool.noConfusion this
  | wwrite2 t rest hwr =>
      have hwh : writerHolds s.writer = true := by
        rw [hwr]
        rfl
      have hw1 : s.word1 = t := by
        have h3b := h3
        simp only [storeWordsOk, hwr, wordsOkFor] at h3b
        exact h3b
      refine ⟨?_, ?_, ?_, ?_, h5⟩
      · intro t2 ht2
        refine h1 t2 ?_
        rw [hwr]
        exact List.mem_cons_of_mem _ ht2
      · intro _
        exact h2 hwh
      · show wordsOkFor script s.word1 t.length (WriterPC.wwrote2 rest)
        simp only [wordsOkFor]
        right
        refine ⟨t, ?_, ?_⟩
        · refine h1 t ?_
          rw [hwr]
          exact List.mem_cons_self _ _
        · rw [hw1]
      · intro a ha
        exfalso
        have := h2 hwh (ReaderPC.gotWord1 a) ha
        exact Bool.noConfusion this
  | wunlock rest hwr =>
      refine ⟨?_, ?_, ?_, h4, h5⟩
      · intro t2 ht2
        refine h1 t2 ?_
        rw [hwr]
        exact ht2
      · intro hwh
        exact Bool.noConfusion hwh
      · have h3b := h3
        simp only [storeWordsOk, hwr, wordsOkFor] at h3b
        show wordsOkFor script s.word1 s.word2 (WriterPC.widle rest)
        simp only [wordsOkFor]
        exact h3b

theorem storeInv_reach (numReaders : Nat) (script : List String) (s : StoreSys)
    (h : StoreReach numReaders script s) : storeInv script s := by
  induction h with
  | init => exact storeInv_init numReaders script
  | step s1 s2 hr hs ih => exact storeInv_step script s1 s2 ih hs

/-! ### The claims -/

/-- Claim C1: for every sequence of upstream issuance and probe
outcomes, `attemptAccessTokenRefresh` makes at most 5 attempts, and it
ends without storing a credential if and only if every one of the 5
attempts fails (issuance failure or probe failure). -/
theorem claimC1 (cfg : RedGifsConfig) (env : Nat → AttemptEnv) (rng : Nat → Nat)
    (store : String) :
    countAttempts (attemptAccessTokenRefresh cfg env rng store).2 ≤ 5 ∧
      ((∀ tok : String,
          RefreshEvent.storeWrite tok ∉ (attemptAccessTokenRefresh cfg env rng store).2) ↔
        ∀ i : Nat, i < 5 → attemptFails (env i)) := by
  constructor
  · exact countAttempts_refreshLoop cfg env rng backoffSchedule 0 store
  · have h := noWrite_iff_allFail cfg env rng backoffSchedule 0 store
    constructor
    · intro hw i hi
      have h2 := h.mp hw i hi
      rwa [Nat.zero_add] at h2
    · intro hall tok
      refine h.mpr ?_ tok
      intro j hj
      rw [Nat.zero_add]
      exact hall j hj

/-- Witness for C1 at a concrete all-failing outcome sequence. -/
theorem claimC1_witness :
    countAttempts (attemptAccessTokenRefresh cfgEx envAllFail rngEx "prev").2 ≤ 5 :=
  (claimC1 cfgEx envAllFail rngEx "prev").1

/-- Claim C2: the refresh routine's final store value is either the value
at entry or a token whose issuance succeeded and whose validation probe
(at the configured test resource id) passed; every store write in the
trace is of such a probed token; and across iterated weekly cycles the
store holds either the empty initial value or a token that passed its
cycle's validation probe when written. -/
theorem claimC2 (cfg : RedGifsConfig) (env : Nat → AttemptEnv) (rng : Nat → Nat)
    (store : String) (envs : Nat → Nat → AttemptEnv) (rngs : Nat → Nat → Nat) :
    ((attemptAccessTokenRefresh cfg env rng store).1 = store ∨
      ∃ i : Nat, i < 5 ∧
        (env i).issuance = some (attemptAccessTokenRefresh cfg env rng store).1 ∧
        (env i).probeOk = true ∧
        RefreshEvent.probe i
            (probeCall cfg rng i (attemptAccessTokenRefresh cfg env rng store).1) ∈
          (attemptAccessTokenRefresh cfg env rng store).2) ∧
    (∀ tok : String,
      RefreshEvent.storeWrite tok ∈ (attemptAccessTokenRefresh cfg env rng store).2 →
      ∃ i : Nat, i < 5 ∧ (env i).issuance = some tok ∧ (env i).probeOk = true ∧
        RefreshEvent.probe i (probeCall cfg rng i tok) ∈
          (attemptAccessTokenRefresh cfg env rng store).2) ∧
    (∀ k : Nat, refreshCycles cfg envs rngs k = "" ∨
      ∃ c : Nat, c < k ∧ ∃ i : Nat, i < 5 ∧
        (envs c i).issuance = some (refreshCycles cfg envs rngs k) ∧
        (envs c i).probeOk = true) := by
  refine ⟨?_, ?_, refreshCycles_inv cfg envs rngs⟩
  · rcases refreshLoop_result_cases cfg env rng backoffSchedule 0 store with
      h1 | ⟨j, hj, hres, hmem⟩
    · exact Or.inl h1
    · right
      rw [Nat.zero_add] at hres hmem
      obtain ⟨hsome, hpok⟩ := (attemptResult_eq_some_iff (env j) _).mp hres
      exact ⟨j, hj, hsome, hpok, hmem⟩
  · intro tok hmem
    rcases storeWrite_mem_refreshLoop cfg env rng backoffSchedule 0 store tok hmem with
      ⟨j, hj, hres, hpm⟩
    rw [Nat.zero_add] at hres hpm
    obtain ⟨hsome, hpok⟩ := (attemptResult_eq_some_iff (env j) tok).mp hres
    exact ⟨j, hj, hsome, hpok, hpm⟩

/-- Witness for C2 at a concrete all-failing outcome sequence. -/
theorem claimC2_witness :
    (attemptAccessTokenRefresh cfgEx envAllFail rngEx "prev").1 = "prev" ∨
      ∃ i : Nat, i < 5 ∧
        (envAllFail i).issuance =
          some (attemptAccessTokenRefresh cfgEx envAllFail rngEx "prev").1 ∧
        (envAllFail i).probeOk = true ∧
        RefreshEvent.probe i
            (probeCall cfgEx rngEx i (attemptAccessTokenRefresh cfgEx envAllFail rngEx "prev").1) ∈
          (attemptAccessTokenRefresh cfgEx envAllFail rngEx "prev").2 :=
  (claimC2 cfgEx envAllFail rngEx "prev" (fun _ => envAllFail) (fun _ => rngEx)).1

/-- Claim C3: if all 5 attempts fail, the refresh cycle returns with the
credential store's value exactly equal to its value before the cycle
began (the routine is total, so no exception can escape it). -/
theorem claimC3 (cfg : RedGifsConfig) (env : Nat → AttemptEnv) (rng : Nat → Nat)
    (store : String) (h : ∀ i : Nat, i < 5 → attemptFails (env i)) :
    (attemptAccessTokenRefresh cfg env rng store).1 = store := by
  refine result_of_allFail cfg env rng backoffSchedule 0 store ?_
  intro j hj
  rw [Nat.zero_add]
  exact h j hj

/-- Witness for C3 at a concrete all-failing outcome sequence. -/
theorem claimC3_witness :
    (∀ i : Nat, i < 5 → attemptFails (envAllFail i)) ∧
      (attemptAccessTokenRefresh cfgEx envAllFail rngEx "prev").1 = "prev" :=
  ⟨by decide, claimC3 cfgEx envAllFail rngEx "prev" (by decide)⟩

/-- Claim C4: the lookup handler maps the upstream outcome exactly as:
not-found yields HTTP 404 with a fixed text body (containing no stream
URL), any other upstream error yields HTTP 500 with a fixed generic text
body, and success yields HTTP 200 with a JSON body whose `streamUrl`
field equals the upstream URL. -/
theorem claimC4 (cfg : RedGifsConfig) (realIP gifId accessToken : String)
    (lookupStreamURL : String → String → String → String → LookupResult) (r : LookupResult)
    (h : lookupStreamURL realIP cfg.StellarClientUserAgent gifId accessToken = r) :
    (handleGifLookup cfg realIP gifId accessToken lookupStreamURL).1 =
      expectedLookupResponse r := by
  subst h
  cases hr : lookupStreamURL realIP cfg.StellarClientUserAgent gifId accessToken <;>
    simp [handleGifLookup, expectedLookupResponse, hr]

/-- Witness for C4 at a concrete resolvable lookup. -/
theorem claimC4_witness :
    lookupEx "203.0.113.7" cfgEx.StellarClientUserAgent "gifid" "tok" =
        LookupResult.ok "https://media.example/stream.m3u8" ∧
      (handleGifLookup cfgEx "203.0.113.7" "gifid" "tok" lookupEx).1 =
        { status := 200,
          body := ResponseBody.json { Url := "https://media.example/stream.m3u8" } } :=
  ⟨rfl, claimC4 cfgEx "203.0.113.7" "gifid" "tok" lookupEx
    (LookupResult.ok "https://media.example/stream.m3u8") rfl⟩

/-- Claim C5: on every executed attempt whose issuance succeeds, the
routine sleeps the fixed 5 second settle delay and then issues exactly
one validation probe for that attempt, using the configured test
resource id, the fixed service-identifying agent string, and the IPv4
literal generated from that attempt's own random draw. -/
theorem claimC5 (cfg : RedGifsConfig) (env : Nat → AttemptEnv) (rng : Nat → Nat)
    (store : String) (i : Nat) (tok : String)
    (hexec : RefreshEvent.issueCall i ∈ (attemptAccessTokenRefresh cfg env rng store).2)
    (hiss : (env i).issuance = some tok) :
    (attemptAccessTokenRefresh cfg env rng store).2.countP (isProbeAt i) = 1 ∧
      ContiguousIn
        [RefreshEvent.issueCall i, RefreshEvent.sleep 5,
          RefreshEvent.probe i (probeCall cfg rng i tok)]
        (attemptAccessTokenRefresh cfg env rng store).2 ∧
      probeCall cfg rng i tok =
        { sourceAddress := generateRandomIPv4Address (rng i), agent := ServerUserAgent,
          resourceId := cfg.RedGifsTestId, token := tok } := by
  obtain ⟨h1, h2⟩ := settle_probe_shape cfg env rng backoffSchedule 0 store i tok hexec hiss
  exact ⟨h1, h2, rfl⟩

/-- Witness for C5 at a concrete first-attempt success. -/
theorem claimC5_witness :
    RefreshEvent.issueCall 0 ∈ (attemptAccessTokenRefresh cfgEx envOk rngEx "").2 ∧
      (envOk 0).issuance = some "tok" ∧
      ((attemptAccessTokenRefresh cfgEx envOk rngEx "").2.countP (isProbeAt 0) = 1 ∧
        ContiguousIn
          [RefreshEvent.issueCall 0, RefreshEvent.sleep 5,
            RefreshEvent.probe 0 (probeCall cfgEx rngEx 0 "tok")]
          (attemptAccessTokenRefresh cfgEx envOk rngEx "").2 ∧
        probeCall cfgEx rngEx 0 "tok" =
          { sourceAddress := generateRandomIPv4Address (rngEx 0), agent := ServerUserAgent,
            resourceId := cfgEx.RedGifsTestId, token := "tok" }) :=
  ⟨by decide, rfl, claimC5 cfgEx envOk rngEx "" 0 "tok" (by decide) rfl⟩

/-- Claim C6: the backoff schedule is exactly `[5, 10, 30, 60, 120]`
seconds, one stage per attempt in order, and after each executed failed
attempt (issuance failure or probe failure) the routine sleeps exactly
that attempt's stage delay as the attempt's final action. -/
theorem claimC6 (cfg : RedGifsConfig) (env : Nat → AttemptEnv) (rng : Nat → Nat)
    (store : String) (i : Nat)
    (hexec : RefreshEvent.issueCall i ∈ (attemptAccessTokenRefresh cfg env rng store).2)
    (hfail : attemptFails (env i)) :
    backoffSchedule = [5, 10, 30, 60, 120] ∧
      ((env i).issuance = none →
        ContiguousIn [RefreshEvent.issueCall i, RefreshEvent.sleep (backoffSchedule.getD i 0)]
          (attemptAccessTokenRefresh cfg env rng store).2) ∧
      (∀ tok : String, (env i).issuance = some tok →
        ContiguousIn
          [RefreshEvent.probe i (probeCall cfg rng i tok),
            RefreshEvent.sleep (backoffSchedule.getD i 0)]
          (attemptAccessTokenRefresh cfg env rng store).2) := by
  have h := backoff_sleep_shape cfg env rng backoffSchedule 0 store i
    (by rw [Nat.zero_add]; exact hexec) (by rw [Nat.zero_add]; exact hfail)
  rw [Nat.zero_add] at h
  exact ⟨rfl, h.1, h.2⟩

/-- Witness for C6 at a concrete probe-failing first attempt. -/
theorem claimC6_witness :
    RefreshEvent.issueCall 0 ∈ (attemptAccessTokenRefresh cfgEx envProbeFail rngEx "").2 ∧
      attemptFails (envProbeFail 0) ∧
      (backoffSchedule = [5, 10, 30, 60, 120] ∧
        ((envProbeFail 0).issuance = none →
          ContiguousIn
            [RefreshEvent.issueCall 0, RefreshEvent.sleep (backoffSchedule.getD 0 0)]
            (attemptAccessTokenRefresh cfgEx envProbeFail rngEx "").2) ∧
        (∀ tok : String, (envProbeFail 0).issuance = some tok →
          ContiguousIn
            [RefreshEvent.probe 0 (probeCall cfgEx rngEx 0 tok),
              RefreshEvent.sleep (backoffSchedule.getD 0 0)]
            (attemptAccessTokenRefresh cfgEx envProbeFail rngEx "").2)) :=
  ⟨by decide, by decide, claimC6 cfgEx envProbeFail rngEx "" 0 (by decide) (by decide)⟩

/-- Claim C7 (counterexample to the claim as stated): the claim's
distinctness conjunct fails on the code.  `validateConfig` checks only
non-emptiness, so a configuration whose `StellarClientUserAgent` equals
the `ServerUserAgent` constant passes validation, and for it the agent
string the handler passes upstream is not distinct from the fixed
service-identifying agent string. -/
theorem claimC7_counterexample :
    validateConfig cfgBad = none ∧
      cfgBad.StellarClientUserAgent = ServerUserAgent ∧
      (handleGifLookup cfgBad "203.0.113.7" "gifid" "tok" lookupEx).2.agent =
        ServerUserAgent ∧
      ¬((handleGifLookup cfgBad "203.0.113.7" "gifid" "tok" lookupEx).2.agent ≠
        ServerUserAgent) :=
  ⟨by decide, rfl, rfl, fun hne => hne rfl⟩

/-- Claim C7 as amended: the lookup handler passes the configured
end-user agent string to the upstream call, and every validation probe
of the refresh routine uses the fixed service-identifying agent string;
the two agents are distinct whenever the configured value differs from
the constant (which configuration validation does not enforce). -/
theorem claimC7 (cfg : RedGifsConfig) (realIP gifId accessToken : String)
    (lookupStreamURL : String → String → String → String → LookupResult)
    (h : cfg.StellarClientUserAgent ≠ ServerUserAgent) :
    (handleGifLookup cfg realIP gifId accessToken lookupStreamURL).2.agent =
        cfg.StellarClientUserAgent ∧
      (handleGifLookup cfg realIP gifId accessToken lookupStreamURL).2.agent ≠
        ServerUserAgent ∧
      (∀ (env : Nat → AttemptEnv) (rng : Nat → Nat) (store : String) (i : Nat)
          (c : UpstreamCall),
        RefreshEvent.probe i c ∈ (attemptAccessTokenRefresh cfg env rng store).2 →
        c.agent = ServerUserAgent) := by
  refine ⟨rfl, h, ?_⟩
  intro env rng store i c hmem
  exact probe_agent_refreshLoop cfg env rng backoffSchedule 0 store i c hmem

/-- Witness for C7 at a concrete configuration with a distinct client agent. -/
theorem claimC7_witness :
    cfgEx.StellarClientUserAgent ≠ ServerUserAgent ∧
      (handleGifLookup cfgEx "203.0.113.7" "gifid" "tok" lookupEx).2.agent =
        cfgEx.StellarClientUserAgent :=
  ⟨by decide, (claimC7 cfgEx "203.0.113.7" "gifid" "tok" lookupEx (by decide)).1⟩

/-- Claim C8: configuration validation returns an error if and only if
at least one of the five required fields is empty; with all fields
non-empty validation returns no error and startup proceeds to serve,
while a validation error prevents serving. -/
theorem claimC8 (cfg : RedGifsConfig) :
    ((validateConfig cfg).isSome ↔
        (cfg.ListenPort = "" ∨ cfg.RedGifsClientId = "" ∨ cfg.RedGifsClientSecret = "" ∨
          cfg.RedGifsTestId = "" ∨ cfg.StellarClientUserAgent = "")) ∧
      (validateConfig cfg = none → mainStartup (some cfg) = StartupResult.serving cfg) ∧
      ((validateConfig cfg).isSome →
        ∀ c : RedGifsConfig, mainStartup (some cfg) ≠ StartupResult.serving c) := by
  by_cases h1 : cfg.ListenPort.length = 0 <;>
    by_cases h2 : cfg.RedGifsClientId.length = 0 <;>
      by_cases h3 : cfg.RedGifsClientSecret.length = 0 <;>
        by_cases h4 : cfg.RedGifsTestId.length = 0 <;>
          by_cases h5 : cfg.StellarClientUserAgent.length = 0 <;>
            simp [validateConfig, mainStartup, h1, h2, h3, h4, h5,
              ← string_length_eq_zero_iff]

/-- Witness for C8 at a concrete fully-populated configuration. -/
theorem claimC8_witness :
    (validateConfig cfgEx).isSome ↔
      (cfgEx.ListenPort = "" ∨ cfgEx.RedGifsClientId = "" ∨ cfgEx.RedGifsClientSecret = "" ∨
        cfgEx.RedGifsTestId = "" ∨ cfgEx.StellarClientUserAgent = "") :=
  (claimC8 cfgEx).1

/-- Claim C9: under arbitrary interleaving of concurrent readers with
the refresh writer, every completed read of the credential store
observes either the empty initial value or the two words of a single
complete write (no torn reads); two readers can hold the read lock at
the same time (readers do not block readers); and in every refresh trace
the write lock is held only for the store write, never across a sleep or
an upstream call. -/
theorem claimC9 :
    (∀ (numReaders : Nat) (script : List String) (s : StoreSys),
        StoreReach numReaders script s → ∀ p ∈ s.observed, validPair script p) ∧
      (∃ s : StoreSys, StoreReach 2 [] s ∧
        s.readers = [ReaderPC.rlocked, ReaderPC.rlocked]) ∧
      (∀ (cfg : RedGifsConfig) (env : Nat → AttemptEnv) (rng : Nat → Nat) (store : String),
        lockDisciplineOk (attemptAccessTokenRefresh cfg env rng store).2 = true) := by
  refine ⟨?_, ?_, ?_⟩
  · intro numReaders script s hr p hp
    exact (storeInv_reach numReaders script s hr).2.2.2.2 p hp
  · have r0 : StoreReach 2 [] (initSys 2 []) := StoreReach.init
    have r1 := StoreReach.step _ _ r0
      (StoreStep.rlock (initSys 2 []) [] [ReaderPC.idle] rfl rfl)
    have r2 := StoreReach.step _ _ r1
      (StoreStep.rlock _ [ReaderPC.rlocked] [] rfl rfl)
    exact ⟨_, r2, rfl⟩
  · intro cfg env rng store
    exact lockDisciplineOk_refreshLoop cfg env rng backoffSchedule 0 store

/-- Witness for C9: a concrete reachable interleaving in which a reader
completes a read and observes the untorn initial value. -/
theorem claimC9_witness : validPair ["t1"] ("", 0) := by
  have r0 : StoreReach 1 ["t1"] (initSys 1 ["t1"]) := StoreReach.init
  have r1 := StoreReach.step _ _ r0
    (StoreStep.rlock (initSys 1 ["t1"]) [] [] rfl rfl)
  have r2 := StoreReach.step _ _ r1
    (StoreStep.rread1 _ [] [] rfl)
  have r3 := StoreReach.step _ _ r2
    (StoreStep.rread2 _ [] [] "" rfl)
  exact claimC9.1 1 ["t1"] _ r3 ("", 0) (List.mem_cons_self _ _)

/-- Claim C10: when the final (5th) attempt fails, the routine still
sleeps the 5th stage's 120 second delay as its very last action before
returning, although no further attempt follows. -/
theorem claimC10 (cfg : RedGifsConfig) (env : Nat → AttemptEnv) (rng : Nat → Nat)
    (store : String) (h : ∀ i : Nat, i < 5 → attemptFails (env i)) :
    ∃ p : List RefreshEvent,
      (attemptAccessTokenRefresh cfg env rng store).2 = p ++ [RefreshEvent.sleep 120] := by
  have hx := final_sleep_shape cfg env rng 120 [5, 10, 30, 60] 0 store (fun j hj => by
    rw [Nat.zero_add]
    exact h j hj)
  exact hx

/-- Witness for C10 at a concrete all-failing outcome sequence. -/
theorem claimC10_witness :
    (∀ i : Nat, i < 5 → attemptFails (envAllFail i)) ∧
      ∃ p : List RefreshEvent,
        (attemptAccessTokenRefresh cfgEx envAllFail rngEx "prev").2 =
          p ++ [RefreshEvent.sleep 120] :=
  ⟨by decide, claimC10 cfgEx envAllFail rngEx "prev" (by decide)⟩
